import Mathlib

/-!
Verification development for the Monkey lexer/parser core
(packages `parser`, `ast`, `repl` of the repository).

The parser and the first part of the `ast` package are embedded from the
source.  The `token` and `lexer` packages are not part of the provided
sources; they are modelled from the specification (section 4.1 and the
token-kind enumeration of section 3).  The embedding works at the level
of Unicode characters rather than bytes; all inputs appearing in the
theorems below are ASCII, where the two views coincide.
-/

/-- Modelled from the spec: the `token` package is not in the sources.
`TokenKind` is a closed enumeration covering identifiers, integer
literals, string literals, the symbols, the keywords, an illegal token
and an end-of-file token (spec section 3). -/
inductive TokenType where
  | ILLEGAL | EOF
  | IDENT | INT | STRING
  | ASSIGN | PLUS | MINUS | BANG | ASTERISK | SLASH
  | LT | GT | EQ | NOT_EQ
  | COMMA | SEMICOLON | COLON
  | LPAREN | RPAREN | LBRACE | RBRACE | LBRACKET | RBRACKET
  | FUNCTION | LET | TRUE | FALSE | IF | ELSE | RETURN
  deriving DecidableEq, Repr

/-- A token: kind plus literal text (spec section 3: `{ kind, literal }`). -/
structure Token where
  type : TokenType
  literal : String
  deriving DecidableEq, Repr

/-- The end-of-file token.  After the last byte the lexer returns this
token indefinitely (spec section 4.1). -/
def eofTok : Token := ⟨TokenType.EOF, ""⟩

/-- Modelled from the spec: in Go a `token.TokenType` is a string
constant rendered verbatim inside parser error messages; this is that
rendering.  No theorem below depends on the exact text. -/
def ttStr : TokenType → String
  | .ILLEGAL => "ILLEGAL" | .EOF => "EOF"
  | .IDENT => "IDENT" | .INT => "INT" | .STRING => "STRING"
  | .ASSIGN => "=" | .PLUS => "+" | .MINUS => "-" | .BANG => "!"
  | .ASTERISK => "*" | .SLASH => "/"
  | .LT => "<" | .GT => ">" | .EQ => "==" | .NOT_EQ => "!="
  | .COMMA => "," | .SEMICOLON => ";" | .COLON => ":"
  | .LPAREN => "(" | .RPAREN => ")" | .LBRACE => "\x7b" | .RBRACE => "\x7d"
  | .LBRACKET => "[" | .RBRACKET => "]"
  | .FUNCTION => "FUNCTION" | .LET => "LET" | .TRUE => "TRUE"
  | .FALSE => "FALSE" | .IF => "IF" | .ELSE => "ELSE" | .RETURN => "RETURN"

/-- Identifier characters: `[A-Za-z_]` — digits are NOT part of
identifiers (spec section 4.1). -/
def isLetterCh (c : Char) : Bool :=
  (decide ('a' ≤ c) && decide (c ≤ 'z')) ||
  (decide ('A' ≤ c) && decide (c ≤ 'Z')) || decide (c = '_')

/-- Decimal digit characters `[0-9]`. -/
def isDigitCh (c : Char) : Bool :=
  decide ('0' ≤ c) && decide (c ≤ '9')

/-- Whitespace skipped by the lexer: space, tab, carriage return, line
feed (spec section 4.1). -/
def isWsCh (c : Char) : Bool :=
  decide (c = ' ') || decide (c = '\t') || decide (c = '\n') || decide (c = '\r')

/-- Modelled from the spec: keyword lookup for a scanned identifier
(keywords `fn let true false if else return`, spec section 3). -/
def lookupIdent (s : String) : TokenType :=
  if s = "fn" then .FUNCTION
  else if s = "let" then .LET
  else if s = "true" then .TRUE
  else if s = "false" then .FALSE
  else if s = "if" then .IF
  else if s = "else" then .ELSE
  else if s = "return" then .RETURN
  else .IDENT

/-- Modelled from the spec: the `lexer` package is not in the sources.
`scanTok c cs` reads one token starting at the non-whitespace character
`c` (with `cs` following it) and returns it together with the
characters after it, as `Lexer.NextToken` does once whitespace is
skipped (spec section 4.1). -/
def scanTok (c : Char) (cs : List Char) : Token × List Char :=
  if isLetterCh c then
    -- readIdentifier: the maximal [A-Za-z_]+ prefix, then keyword lookup
    let w := (c :: cs).takeWhile isLetterCh
    (⟨lookupIdent (String.mk w), String.mk w⟩, (c :: cs).dropWhile isLetterCh)
  else if isDigitCh c then
    -- readNumber: the maximal [0-9]+ prefix
    let w := (c :: cs).takeWhile isDigitCh
    (⟨TokenType.INT, String.mk w⟩, (c :: cs).dropWhile isDigitCh)
  else if c = '"' then
    -- string literal: any characters other than '"', no escapes;
    -- an unterminated literal ends at end-of-file
    let body := cs.takeWhile (fun d => decide (d ≠ '"'))
    (⟨TokenType.STRING, String.mk body⟩, (cs.dropWhile (fun d => decide (d ≠ '"'))).tail)
  else if c = '=' then
    match cs with
    | '=' :: cs2 => (⟨TokenType.EQ, "=="⟩, cs2)
    | _ => (⟨TokenType.ASSIGN, "="⟩, cs)
  else if c = '!' then
    match cs with
    | '=' :: cs2 => (⟨TokenType.NOT_EQ, "!="⟩, cs2)
    | _ => (⟨TokenType.BANG, "!"⟩, cs)
  else
    let one : TokenType :=
      if c = '+' then .PLUS else if c = '-' then .MINUS
      else if c = '*' then .ASTERISK else if c = '/' then .SLASH
      else if c = '<' then .LT else if c = '>' then .GT
      else if c = ',' then .COMMA else if c = ';' then .SEMICOLON
      else if c = ':' then .COLON
      else if c = '(' then .LPAREN else if c = ')' then .RPAREN
      else if c = '\x7b' then .LBRACE else if c = '\x7d' then .RBRACE
      else if c = '[' then .LBRACKET else if c = ']' then .RBRACKET
      else .ILLEGAL
    (⟨one, String.mk [c]⟩, cs)

/-- Modelled from the spec: `tokenize fuel cs` scans the character list
`cs` into the finite list of tokens before the end-of-file token,
skipping whitespace and reading one token per `scanTok` step.  Every
step consumes at least one character, so with `fuel = cs.length` the
fuel never runs out; the `0` case is unreachable from `lex` below. -/
def tokenize : Nat → List Char → List Token
  | _, [] => []
  | 0, _ => []
  | fuel+1, c :: cs =>
    if isWsCh c then tokenize fuel cs
    else
      let tr := scanTok c cs
      tr.1 :: tokenize fuel tr.2

/-- The token stream of a source string (everything before the
end-of-file token). -/
def lex (s : String) : List Token := tokenize s.data.length s.data

/-!  The AST (`ast` package).  The sources contain the node types up to
`Boolean`; the remaining node kinds (string, array, index, call, if,
function literal, hash, block) are declared here with the fields the
parser assigns, because the parser in the sources constructs them.  Go
interface values may be `nil`; the `NilExpression` / `NilStatement`
constructors represent a nil `ast.Expression` / `ast.Statement`. -/

mutual
inductive Expression where
  | NilExpression
  | Identifier (tok : Token) (value : String)
  | IntegerLiteral (tok : Token) (value : Int)
  | Boolean (tok : Token) (value : Bool)
  | StringLiteral (tok : Token) (value : String)
  | PrefixExpression (tok : Token) (op : String) (right : Expression)
  | InfixExpression (tok : Token) (left : Expression) (op : String) (right : Expression)
  | IfExpression (tok : Token) (cond : Expression) (conseq : Statement) (alt : Option Statement)
  | FunctionLiteral (tok : Token) (params : Option (List (Token × String))) (body : Statement)
  | CallExpression (tok : Token) (function : Expression) (args : Option (List Expression))
  | ArrayLiteral (tok : Token) (elements : Option (List Expression))
  | IndexExpression (tok : Token) (left : Expression) (index : Expression)
  | HashLiteral (tok : Token) (pairs : List (Expression × Expression))
inductive Statement where
  | NilStatement
  | LetStatement (tok : Token) (nameTok : Token) (nameVal : String) (value : Expression)
  | ReturnStatement (tok : Token) (value : Expression)
  | ExpressionStatement (tok : Token) (e : Expression)
  | BlockStatement (tok : Token) (stmts : List Statement)
end

/- A remark on `HashLiteral`: in the sources `Pairs` is a Go
`map[ast.Expression]ast.Expression` keyed by freshly allocated node
pointers, so distinct insertions never collide and the map holds exactly
the inserted pairs, but its iteration order is unspecified.  The list
above records the insertion sequence; no theorem below relies on any
enumeration order of the Go map. -/

/-- Canonical string form of an expression (`String()` methods of the
`ast` package).  The sources define the printers for `Identifier`,
`IntegerLiteral`, `PrefixExpression`, `InfixExpression` and `Boolean`;
printers for the remaining variants are not in the sources and are
rendered as an empty placeholder here — no theorem below prints those
variants.  A nil expression prints as the empty string (in Go the nil
guards of the statement printers skip it). -/
def exprString : Expression → String
  | .NilExpression => ""
  | .Identifier _ v => v
  | .IntegerLiteral tok _ => tok.literal
  | .Boolean tok _ => tok.literal
  | .PrefixExpression _ op r => "(" ++ op ++ exprString r ++ ")"
  | .InfixExpression _ l op r =>
      "(" ++ exprString l ++ " " ++ op ++ " " ++ exprString r ++ ")"
  | .StringLiteral _ _ => ""
  | .IfExpression _ _ _ _ => ""
  | .FunctionLiteral _ _ _ => ""
  | .CallExpression _ _ _ => ""
  | .ArrayLiteral _ _ => ""
  | .IndexExpression _ _ _ => ""
  | .HashLiteral _ _ => ""

/-- Canonical string form of a statement.  `LetStatement`,
`ReturnStatement` and `ExpressionStatement` are from the sources
(`TokenLiteral() + " " + Name + " = " + Value + ";"` etc.); the
`BlockStatement` printer is not in the sources and is a placeholder; a
nil statement prints as the empty string. -/
def stmtString : Statement → String
  | .NilStatement => ""
  | .LetStatement tok _ nameVal v => tok.literal ++ " " ++ nameVal ++ " = " ++ exprString v ++ ";"
  | .ReturnStatement tok v => tok.literal ++ " " ++ exprString v ++ ";"
  | .ExpressionStatement _ e => exprString e
  | .BlockStatement _ _ => ""

/-- `Program.String()`: the concatenation of the statements' strings. -/
def programString (stmts : List Statement) : String :=
  String.join (stmts.map stmtString)

/-!  Parser (`parser` package). -/

/-- Precedence constants (`iota` block of the parser: LOWEST = 1 …
INDEX = 8). -/
def LOWEST : Nat := 1
def EQUALS : Nat := 2
def LESSGREATER : Nat := 3
def SUM : Nat := 4
def PRODUCT : Nat := 5
def PREFIX : Nat := 6
def CALL : Nat := 7
def INDEX : Nat := 8

/-- The precedence table `precedences` (a Go map; absent kinds yield no
entry). -/
def precedences : TokenType → Option Nat
  | .EQ => some EQUALS
  | .NOT_EQ => some EQUALS
  | .LT => some LESSGREATER
  | .GT => some LESSGREATER
  | .PLUS => some SUM
  | .MINUS => some SUM
  | .SLASH => some PRODUCT
  | .ASTERISK => some PRODUCT
  | .LPAREN => some CALL
  | .LBRACKET => some INDEX
  | _ => none

/-- Parser state: the `errors` slice plus the `curToken`/`peekToken`
cursors over the lexer.  `rest` is the not-yet-delivered part of the
finite token stream; once it is exhausted the lexer delivers `eofTok`
indefinitely. -/
structure PState where
  curToken : Token
  peekToken : Token
  rest : List Token
  errors : List String
  deriving DecidableEq, Repr

/-- `Parser.nextToken`: advance both cursors by one token. -/
def nextToken (st : PState) : PState :=
  { st with curToken := st.peekToken,
            peekToken := st.rest.headD eofTok,
            rest := st.rest.tail }

/-- `parser.New`: fresh parser (empty error list) advanced twice so that
both cursors are populated. -/
def mkParser (toks : List Token) : PState :=
  nextToken (nextToken ⟨eofTok, eofTok, toks, []⟩)

/-- `peekPrecedence`: precedence of the peek token, `LOWEST` when the
kind is not in the table. -/
def peekPrecedence (st : PState) : Nat :=
  (precedences st.peekToken.type).getD LOWEST

/-- `curPrecedence`: precedence of the current token, `LOWEST` when the
kind is not in the table. -/
def curPrecedence (st : PState) : Nat :=
  (precedences st.curToken.type).getD LOWEST

/-- Append one message to the parser's error slice. -/
def appendError (msg : String) (st : PState) : PState :=
  { st with errors := st.errors ++ [msg] }

/-- `peekError`: record `expected next token to be X, got Y instead`. -/
def peekError (t : TokenType) (st : PState) : PState :=
  appendError ("expected next token to be " ++ ttStr t ++ ", got "
    ++ ttStr st.peekToken.type ++ " instead") st

/-- `expectPeek`: advance when the peek token has the wanted kind,
otherwise record a `peekError`. -/
def expectPeek (t : TokenType) (st : PState) : Bool × PState :=
  if st.peekToken.type = t then (true, nextToken st) else (false, peekError t st)

/-- `noPrefixParseFnError`: record `no prefix parse function for X found`. -/
def noPrefixParseFnError (t : TokenType) (st : PState) : PState :=
  appendError ("no prefix parse function for " ++ ttStr t ++ " found") st

/-- Outcome of running a parser function.  `ok a st` is a normal return
carrying the updated parser; `diverge` marks a state in which the Go
code provably loops forever (see `skipToSemicolon`); `fuelOut` only
signals that the chosen fuel bound was too small, never a property of
the Go code. -/
inductive PRes (α : Type) where
  | ok (a : α) (st : PState)
  | diverge
  | fuelOut
  deriving Repr

/-- Sequencing of parser outcomes. -/
def PRes.bind {α β : Type} : PRes α → (α → PState → PRes β) → PRes β
  | .ok a st, f => f a st
  | .diverge, _ => .diverge
  | .fuelOut, _ => .fuelOut

/-- The loop `for !p.curTokenIs(token.SEMICOLON) { p.nextToken() }` of
`parseLetStatement` / `parseReturnStatement`, bounded by the length of
the remaining finite stream.  After `st.rest.length + 2` advances the
current token is the end-of-file padding and every later token is
end-of-file as well, so if no semicolon was found by then the Go loop
can never exit: its guard tests only for SEMICOLON.  `diverge` is the
faithful image of that infinite loop. -/
def skipToSemicolonAux : Nat → PState → PRes Unit
  | 0, st =>
    if st.curToken.type = .SEMICOLON then .ok () st else .diverge
  | n+1, st =>
    if st.curToken.type = .SEMICOLON then .ok () st
    else skipToSemicolonAux n (nextToken st)

/-- See `skipToSemicolonAux`. -/
def skipToSemicolon (st : PState) : PRes Unit :=
  skipToSemicolonAux (st.rest.length + 2) st

/-- `strconv.ParseInt(lit, 0, 64)` restricted to the `[0-9]+` literals
the lexer produces.  Base 0 means: a literal `"0"` is zero; a longer
literal starting with `0` is read in base 8 (digits 8 and 9 make it
invalid); anything else is read in base 10.  A value above the maximal
int64 is a range error.  `none` is Go's non-nil `err`. -/
def digitVal (c : Char) : Nat := c.toNat - 48

/-- Value of a digit list in base 10. -/
def digitsVal (l : List Char) : Nat :=
  l.foldl (fun acc c => acc * 10 + digitVal c) 0

/-- Value of a digit list in base 8. -/
def octVal (l : List Char) : Nat :=
  l.foldl (fun acc c => acc * 8 + digitVal c) 0

/-- The maximal int64 value, 2^63 - 1. -/
def maxI64 : Nat := 9223372036854775807

/-- See above: Go's `strconv.ParseInt` with base 0 and bit size 64 on
the lexer's digit-only literals. -/
def goParseInt (s : String) : Option Int :=
  match s.data with
  | [] => none
  | c :: rest =>
    if c = '0' then
      if rest = [] then some 0
      else if rest.all (fun d => decide ('0' ≤ d) && decide (d ≤ '7')) then
        if octVal rest ≤ maxI64 then some (octVal rest) else none
      else none
    else
      if (c :: rest).all (fun d => decide ('0' ≤ d) && decide (d ≤ '9')) then
        if digitsVal (c :: rest) ≤ maxI64 then some (digitsVal (c :: rest)) else none
      else none

/-- `parseIdentifier`. -/
def parseIdentifier (st : PState) : PRes Expression :=
  .ok (.Identifier st.curToken st.curToken.literal) st

/-- `parseBoolean`: the value is `curTokenIs(token.TRUE)`. -/
def parseBoolean (st : PState) : PRes Expression :=
  .ok (.Boolean st.curToken (st.curToken.type = .TRUE)) st

/-- `parseStringLiteral`. -/
def parseStringLiteral (st : PState) : PRes Expression :=
  .ok (.StringLiteral st.curToken st.curToken.literal) st

/-- `parseIntegerLiteral`: convert the literal with
`strconv.ParseInt(lit, 0, 64)`; on failure append
`could not parse "<lit>" as integer` and return a nil expression. -/
def parseIntegerLiteral (st : PState) : PRes Expression :=
  match goParseInt st.curToken.literal with
  | some v => .ok (.IntegerLiteral st.curToken v) st
  | none =>
    .ok .NilExpression
      (appendError ("could not parse \"" ++ st.curToken.literal ++ "\" as integer") st)

/-!  The mutually recursive parser functions.  Every function takes a
fuel argument and consumes one unit per call; `fuelOut` marks an
insufficient bound only.  The registered dispatch tables of `parser.New`
appear as the matches inside `parseExpression` (prefix table) and
`prattLoop` (infix table). -/

mutual

/-- `parseExpression(precedence)`: prefix dispatch on the current token
(the table registered in `parser.New`), then the Pratt loop.  A missing
entry records `noPrefixParseFnError` and returns a nil expression
without entering the loop. -/
def parseExpression : Nat → Nat → PState → PRes Expression
  | 0, _, _ => .fuelOut
  | fuel+1, precedence, st =>
    match st.curToken.type with
    | .IDENT => (parseIdentifier st).bind (prattLoop fuel precedence)
    | .INT => (parseIntegerLiteral st).bind (prattLoop fuel precedence)
    | .BANG => (parsePrefixExpression fuel st).bind (prattLoop fuel precedence)
    | .MINUS => (parsePrefixExpression fuel st).bind (prattLoop fuel precedence)
    | .TRUE => (parseBoolean st).bind (prattLoop fuel precedence)
    | .FALSE => (parseBoolean st).bind (prattLoop fuel precedence)
    | .LPAREN => (parseGroupedExpression fuel st).bind (prattLoop fuel precedence)
    | .IF => (parseIfExpression fuel st).bind (prattLoop fuel precedence)
    | .FUNCTION => (parseFunctionLiteral fuel st).bind (prattLoop fuel precedence)
    | .STRING => (parseStringLiteral st).bind (prattLoop fuel precedence)
    | .LBRACKET => (parseArrayLiteral fuel st).bind (prattLoop fuel precedence)
    | .LBRACE => (parseHashLiteral fuel st).bind (prattLoop fuel precedence)
    | t => .ok .NilExpression (noPrefixParseFnError t st)
termination_by structural fuel _ _ => fuel

/-- The loop of `parseExpression`: while the peek token is not a
semicolon and has a strictly higher precedence, dispatch on the infix
table; a kind with no infix entry returns the expression built so far. -/
def prattLoop : Nat → Nat → Expression → PState → PRes Expression
  | 0, _, _, _ => .fuelOut
  | fuel+1, precedence, leftExp, st =>
    if st.peekToken.type ≠ .SEMICOLON ∧ precedence < peekPrecedence st then
      match st.peekToken.type with
      | .PLUS => (parseInfixExpression fuel leftExp (nextToken st)).bind (prattLoop fuel precedence)
      | .MINUS => (parseInfixExpression fuel leftExp (nextToken st)).bind (prattLoop fuel precedence)
      | .SLASH => (parseInfixExpression fuel leftExp (nextToken st)).bind (prattLoop fuel precedence)
      | .ASTERISK => (parseInfixExpression fuel leftExp (nextToken st)).bind (prattLoop fuel precedence)
      | .EQ => (parseInfixExpression fuel leftExp (nextToken st)).bind (prattLoop fuel precedence)
      | .NOT_EQ => (parseInfixExpression fuel leftExp (nextToken st)).bind (prattLoop fuel precedence)
      | .LT => (parseInfixExpression fuel leftExp (nextToken st)).bind (prattLoop fuel precedence)
      | .GT => (parseInfixExpression fuel leftExp (nextToken st)).bind (prattLoop fuel precedence)
      | .LPAREN => (parseCallExpression fuel leftExp (nextToken st)).bind (prattLoop fuel precedence)
      | .LBRACKET => (parseIndexExpression fuel leftExp (nextToken st)).bind (prattLoop fuel precedence)
      | _ => .ok leftExp st
    else .ok leftExp st
termination_by structural fuel _ _ _ => fuel

/-- `parsePrefixExpression`: record the operator, advance, parse the
right side at precedence PREFIX. -/
def parsePrefixExpression : Nat → PState → PRes Expression
  | 0, _ => .fuelOut
  | fuel+1, st =>
    let tok := st.curToken
    (parseExpression fuel PREFIX (nextToken st)).bind fun right st2 =>
      .ok (.PrefixExpression tok tok.literal right) st2
termination_by structural fuel _ => fuel

/-- `parseInfixExpression(left)`: record the operator and its own
precedence, advance, parse the right side at that same precedence
(this is what makes every operator left-associative). -/
def parseInfixExpression : Nat → Expression → PState → PRes Expression
  | 0, _, _ => .fuelOut
  | fuel+1, left, st =>
    let tok := st.curToken
    let precedence := curPrecedence st
    (parseExpression fuel precedence (nextToken st)).bind fun right st2 =>
      .ok (.InfixExpression tok left tok.literal right) st2
termination_by structural fuel _ _ => fuel

/-- `parseGroupedExpression`: skip `(`, parse at LOWEST, require `)`. -/
def parseGroupedExpression : Nat → PState → PRes Expression
  | 0, _ => .fuelOut
  | fuel+1, st =>
    (parseExpression fuel LOWEST (nextToken st)).bind fun exp st2 =>
      match expectPeek .RPAREN st2 with
      | (true, st3) => .ok exp st3
      | (false, st3) => .ok .NilExpression st3
termination_by structural fuel _ => fuel

/-- `parseIfExpression`: `if ( COND ) { CONSEQ }` with an optional
`else { ALT }`. -/
def parseIfExpression : Nat → PState → PRes Expression
  | 0, _ => .fuelOut
  | fuel+1, st =>
    let tok := st.curToken
    match expectPeek .LPAREN st with
    | (false, st2) => .ok .NilExpression st2
    | (true, st2) =>
      (parseExpression fuel LOWEST (nextToken st2)).bind fun cond st3 =>
      match expectPeek .RPAREN st3 with
      | (false, st4) => .ok .NilExpression st4
      | (true, st4) =>
        match expectPeek .LBRACE st4 with
        | (false, st5) => .ok .NilExpression st5
        | (true, st5) =>
          (parseBlockStatement fuel st5).bind fun conseq st6 =>
          if st6.peekToken.type = .ELSE then
            match expectPeek .LBRACE (nextToken st6) with
            | (false, st7) => .ok .NilExpression st7
            | (true, st7) =>
              (parseBlockStatement fuel st7).bind fun alt st8 =>
                .ok (.IfExpression tok cond conseq (some alt)) st8
          else .ok (.IfExpression tok cond conseq none) st6
termination_by structural fuel _ => fuel

/-- `parseFunctionLiteral`: `fn ( PARAMS ) { BODY }`. -/
def parseFunctionLiteral : Nat → PState → PRes Expression
  | 0, _ => .fuelOut
  | fuel+1, st =>
    let tok := st.curToken
    match expectPeek .LPAREN st with
    | (false, st2) => .ok .NilExpression st2
    | (true, st2) =>
      (parseFunctionParameters fuel st2).bind fun params st3 =>
      match expectPeek .LBRACE st3 with
      | (false, st4) => .ok .NilExpression st4
      | (true, st4) =>
        (parseBlockStatement fuel st4).bind fun body st5 =>
          .ok (.FunctionLiteral tok params body) st5
termination_by structural fuel _ => fuel

/-- `parseFunctionParameters`: an empty list when `)` follows directly;
otherwise the current token is wrapped as an `Identifier` node without
checking its kind, then for every comma two advances and another
unchecked wrap; finally `)` is required (failure yields Go's nil
slice, `none`). -/
def parseFunctionParameters : Nat → PState → PRes (Option (List (Token × String)))
  | 0, _ => .fuelOut
  | fuel+1, st =>
    if st.peekToken.type = .RPAREN then .ok (some []) (nextToken st)
    else
      let st2 := nextToken st
      paramLoop fuel [(st2.curToken, st2.curToken.literal)] st2

/-- The comma loop of `parseFunctionParameters`. -/
def paramLoop : Nat → List (Token × String) → PState → PRes (Option (List (Token × String)))
  | 0, _, _ => .fuelOut
  | fuel+1, acc, st =>
    if st.peekToken.type = .COMMA then
      let st2 := nextToken (nextToken st)
      paramLoop fuel (acc ++ [(st2.curToken, st2.curToken.literal)]) st2
    else
      match expectPeek .RPAREN st with
      | (false, st2) => .ok none st2
      | (true, st2) => .ok (some acc) st2
termination_by structural fuel _ _ => fuel

/-- `parseCallExpression(function)`: the arguments are an expression
list closed by `)`. -/
def parseCallExpression : Nat → Expression → PState → PRes Expression
  | 0, _, _ => .fuelOut
  | fuel+1, function, st =>
    let tok := st.curToken
    (parseExpressionList fuel .RPAREN st).bind fun args st2 =>
      .ok (.CallExpression tok function args) st2
termination_by structural fuel _ _ => fuel

/-- `parseIndexExpression(left)`: `[`, expression at LOWEST, `]`. -/
def parseIndexExpression : Nat → Expression → PState → PRes Expression
  | 0, _, _ => .fuelOut
  | fuel+1, left, st =>
    let tok := st.curToken
    (parseExpression fuel LOWEST (nextToken st)).bind fun index st2 =>
      match expectPeek .RBRACKET st2 with
      | (false, st3) => .ok .NilExpression st3
      | (true, st3) => .ok (.IndexExpression tok left index) st3
termination_by structural fuel _ _ => fuel

/-- `parseArrayLiteral`: an expression list closed by `]`. -/
def parseArrayLiteral : Nat → PState → PRes Expression
  | 0, _ => .fuelOut
  | fuel+1, st =>
    let tok := st.curToken
    (parseExpressionList fuel .RBRACKET st).bind fun elements st2 =>
      .ok (.ArrayLiteral tok elements) st2
termination_by structural fuel _ => fuel

/-- `parseExpressionList(end)`: empty when `end` follows directly;
otherwise one expression at LOWEST, then the comma loop; failure of the
final `expectPeek(end)` yields Go's nil slice, `none`. -/
def parseExpressionList : Nat → TokenType → PState → PRes (Option (List Expression))
  | 0, _, _ => .fuelOut
  | fuel+1, endT, st =>
    if st.peekToken.type = endT then .ok (some []) (nextToken st)
    else
      (parseExpression fuel LOWEST (nextToken st)).bind fun e st2 =>
        listLoop fuel endT [e] st2
termination_by structural fuel _ _ => fuel

/-- The comma loop of `parseExpressionList`. -/
def listLoop : Nat → TokenType → List Expression → PState → PRes (Option (List Expression))
  | 0, _, _, _ => .fuelOut
  | fuel+1, endT, acc, st =>
    if st.peekToken.type = .COMMA then
      (parseExpression fuel LOWEST (nextToken (nextToken st))).bind fun e st2 =>
        listLoop fuel endT (acc ++ [e]) st2
    else
      match expectPeek endT st with
      | (false, st2) => .ok none st2
      | (true, st2) => .ok (some acc) st2
termination_by structural fuel _ _ _ => fuel

/-- `parseHashLiteral`: the loop below; the node keeps the insertion
sequence of `hash.Pairs[key] = value` (see the remark after the AST). -/
def parseHashLiteral : Nat → PState → PRes Expression
  | 0, _ => .fuelOut
  | fuel+1, st =>
    hashLoop fuel st.curToken [] st
termination_by structural fuel _ => fuel

/-- The loop of `parseHashLiteral`: while the peek token is not `}`,
parse `KEY : VALUE`; after a pair, when the peek token is not `}` a
comma is required (so a comma directly before `}` is consumed without
complaint); finally `}` is required. -/
def hashLoop : Nat → Token → List (Expression × Expression) → PState → PRes Expression
  | 0, _, _, _ => .fuelOut
  | fuel+1, tok, pairs, st =>
    if st.peekToken.type ≠ .RBRACE then
      (parseExpression fuel LOWEST (nextToken st)).bind fun key st2 =>
      match expectPeek .COLON st2 with
      | (false, st3) => .ok .NilExpression st3
      | (true, st3) =>
        (parseExpression fuel LOWEST (nextToken st3)).bind fun value st4 =>
        let pairs2 := pairs ++ [(key, value)]
        if st4.peekToken.type = .RBRACE then hashLoop fuel tok pairs2 st4
        else
          match expectPeek .COMMA st4 with
          | (false, st5) => .ok .NilExpression st5
          | (true, st5) => hashLoop fuel tok pairs2 st5
    else
      match expectPeek .RBRACE st with
      | (false, st2) => .ok .NilExpression st2
      | (true, st2) => .ok (.HashLiteral tok pairs) st2
termination_by structural fuel _ _ _ => fuel

/-- `parseStatement`: LET and RETURN statements, everything else an
expression statement. -/
def parseStatement : Nat → PState → PRes Statement
  | 0, _ => .fuelOut
  | fuel+1, st =>
    match st.curToken.type with
    | .LET => parseLetStatement fuel st
    | .RETURN => parseReturnStatement fuel st
    | _ => parseExpressionStatement fuel st
termination_by structural fuel _ => fuel

/-- `parseLetStatement`: `let IDENT = EXPR`, then the semicolon loop
(`skipToSemicolon`), which never checks for end-of-file. -/
def parseLetStatement : Nat → PState → PRes Statement
  | 0, _ => .fuelOut
  | fuel+1, st =>
    let tok := st.curToken
    match expectPeek .IDENT st with
    | (false, st2) => .ok .NilStatement st2
    | (true, st2) =>
      let nameTok := st2.curToken
      let nameVal := st2.curToken.literal
      match expectPeek .ASSIGN st2 with
      | (false, st3) => .ok .NilStatement st3
      | (true, st3) =>
        (parseExpression fuel LOWEST (nextToken st3)).bind fun value st4 =>
        (skipToSemicolon st4).bind fun _ st5 =>
          .ok (.LetStatement tok nameTok nameVal value) st5
termination_by structural fuel _ => fuel

/-- `parseReturnStatement`: skip `return`, parse at LOWEST, then the
same semicolon loop as `parseLetStatement`. -/
def parseReturnStatement : Nat → PState → PRes Statement
  | 0, _ => .fuelOut
  | fuel+1, st =>
    let tok := st.curToken
    (parseExpression fuel LOWEST (nextToken st)).bind fun value st2 =>
    (skipToSemicolon st2).bind fun _ st3 =>
      .ok (.ReturnStatement tok value) st3
termination_by structural fuel _ => fuel

/-- `parseExpressionStatement`: one expression at LOWEST; an optional
trailing semicolon is consumed. -/
def parseExpressionStatement : Nat → PState → PRes Statement
  | 0, _ => .fuelOut
  | fuel+1, st =>
    let tok := st.curToken
    (parseExpression fuel LOWEST st).bind fun e st2 =>
      if st2.peekToken.type = .SEMICOLON then
        .ok (.ExpressionStatement tok e) (nextToken st2)
      else .ok (.ExpressionStatement tok e) st2
termination_by structural fuel _ => fuel

/-- `parseBlockStatement`: skip `{`, then statements until `}` or
end-of-file (this loop, unlike the semicolon loop, does check for
end-of-file). -/
def parseBlockStatement : Nat → PState → PRes Statement
  | 0, _ => .fuelOut
  | fuel+1, st =>
    blockLoop fuel st.curToken [] (nextToken st)
termination_by structural fuel _ => fuel

/-- The loop of `parseBlockStatement`; every parsed statement is
appended, nil or not. -/
def blockLoop : Nat → Token → List Statement → PState → PRes Statement
  | 0, _, _, _ => .fuelOut
  | fuel+1, tok, acc, st =>
    if st.curToken.type ≠ .RBRACE ∧ st.curToken.type ≠ .EOF then
      (parseStatement fuel st).bind fun stmt st2 =>
        blockLoop fuel tok (acc ++ [stmt]) (nextToken st2)
    else .ok (.BlockStatement tok acc) st
termination_by structural fuel _ _ _ => fuel

/-- The loop of `ParseProgram`: parse statements until the current token
is end-of-file; every statement is appended (the nil check in the
sources is commented out). -/
def programLoop : Nat → List Statement → PState → PRes (List Statement)
  | 0, _, _ => .fuelOut
  | fuel+1, acc, st =>
    if st.curToken.type ≠ .EOF then
      (parseStatement fuel st).bind fun stmt st2 =>
        programLoop fuel (acc ++ [stmt]) (nextToken st2)
    else .ok acc st
termination_by structural fuel _ _ => fuel

end

/-- `ParseProgram`: the statement loop from an initial parser state. -/
def ParseProgram (fuel : Nat) (st : PState) : PRes (List Statement) :=
  programLoop fuel [] st

/-- Lex a source string and run `ParseProgram` on it, as
`parser.New(lexer.New(src)).ParseProgram()` does. -/
def runProgram (fuel : Nat) (src : String) : PRes (List Statement) :=
  ParseProgram fuel (mkParser (lex src))

/-- The parser's error slice after `ParseProgram`, when it returns. -/
def runErrors (fuel : Nat) (src : String) : Option (List String) :=
  match runProgram fuel src with
  | .ok _ st => some st.errors
  | _ => none

/-- The canonical string form `Program.String()` of the parsed program,
when `ParseProgram` returns. -/
def runString (fuel : Nat) (src : String) : Option String :=
  match runProgram fuel src with
  | .ok stmts _ => some (programString stmts)
  | _ => none

/-- The parsed statement list, when `ParseProgram` returns. -/
def runStmts (fuel : Nat) (src : String) : Option (List Statement) :=
  match runProgram fuel src with
  | .ok stmts _ => some stmts
  | _ => none

/-- The value of the first statement when it is an integer-literal
expression statement, when `ParseProgram` returns. -/
def runFirstIntVal (fuel : Nat) (src : String) : Option Int :=
  match runProgram fuel src with
  | .ok [Statement.ExpressionStatement _ (Expression.IntegerLiteral _ v)] _ => some v
  | _ => none

/-- The recorded pairs of the first statement when it is a hash-literal
expression statement, when `ParseProgram` returns. -/
def runFirstHashPairs (fuel : Nat) (src : String) : Option (List (Expression × Expression)) :=
  match runProgram fuel src with
  | .ok [Statement.ExpressionStatement _ (Expression.HashLiteral _ pairs)] _ => some pairs
  | _ => none

/-- The parameter nodes of the first statement when it is a
function-literal expression statement with a non-nil parameter slice,
when `ParseProgram` returns. -/
def runFnParams (fuel : Nat) (src : String) : Option (List (Token × String)) :=
  match runProgram fuel src with
  | .ok [Statement.ExpressionStatement _ (Expression.FunctionLiteral _ (some ps) _)] _ => some ps
  | _ => none

/-- The binary infix operators of the precedence table (kind and
literal).  The table also holds `(` (CALL, as a call) and `[` (INDEX,
as an index); those two cannot occur as the operator of an
`a o b` template, so the claims about `a o1 b o2 c` range over these
eight. -/
def opsList : List (TokenType × String) :=
  [(.EQ, "=="), (.NOT_EQ, "!="), (.LT, "<"), (.GT, ">"),
   (.PLUS, "+"), (.MINUS, "-"), (.SLASH, "/"), (.ASTERISK, "*")]

/-- The precedence level of a token kind, `LOWEST` when absent from the
table. -/
def opLevel (t : TokenType) : Nat := (precedences t).getD LOWEST

/-- The ten decimal digit characters. -/
def digitChars : List Char := ['0', '1', '2', '3', '4', '5', '6', '7', '8', '9']

/-!  The batch entry point `repl.StartHandle` (package `repl`).  Only
the computation of the `check` flag is modelled: the preamble and the
per-line `evaluator.Eval` calls read and write the environment and the
output buffer but never touch `check` or the parser's error list (the
`evaluator` and `object` packages are not in the sources and are not
needed for it).  `Eval` itself may fail to terminate on user programs;
the claims treated here concern the parse phase. -/

/-- `strings.ReplaceAll(raw, "\n", "")`. -/
def stripNewlines (s : String) : String :=
  String.mk (s.data.filter (fun c => decide (c ≠ '\n')))

/-- One step of `bufio.Scanner` with the default line splitter on data
that contains no newline: no token at all for empty input, otherwise a
single token consisting of everything, with one trailing carriage
return dropped at end-of-input. -/
def scanLine (s : String) : Option String :=
  if s.data = [] then none
  else if s.data.getLast? = some '\r' then some (String.mk s.data.dropLast)
  else some s

/-- The single line `StartHandle` feeds to the parser (empty when the
scanner yields no token). -/
def lineOf (raw : String) : String :=
  (scanLine (stripNewlines raw)).getD ""

/-- Outcome of the modelled `StartHandle`: the `ok` flag it returns,
`diverge` when the parse loop runs forever, `fuelOut` for an
insufficient fuel bound only. -/
inductive HRes where
  | ok (check : Bool)
  | diverge
  | fuelOut
  deriving DecidableEq, Repr

/-- The `ok` flag computed by `repl.StartHandle`: newlines are removed
from the input, the scanner yields at most one line, the line is lexed
and parsed with a fresh parser, and `check` becomes false exactly when
the error list is non-empty.  When the scanner yields no line the loop
body never runs and `check` stays true. -/
def startHandleCheck (fuel : Nat) (raw : String) : HRes :=
  match scanLine (stripNewlines raw) with
  | none => .ok true
  | some line =>
    match ParseProgram fuel (mkParser (lex line)) with
    | .ok _ st => .ok st.errors.isEmpty
    | .diverge => .diverge
    | .fuelOut => .fuelOut

/-!  Helper lemmas. -/

/-- A list all of whose elements satisfy `p` is its own `takeWhile`. -/
theorem takeWhileAll {α : Type} (p : α → Bool) :
    ∀ l : List α, (∀ a ∈ l, p a = true) → l.takeWhile p = l
  | [], _ => rfl
  | a :: l, h => by
    simp only [List.takeWhile_cons, h a (by simp)]
    simp [takeWhileAll p l (fun b hb => h b (by simp [hb]))]

/-- A list all of whose elements satisfy `p` has empty `dropWhile`. -/
theorem dropWhileAll {α : Type} (p : α → Bool) :
    ∀ l : List α, (∀ a ∈ l, p a = true) → l.dropWhile p = []
  | [], _ => rfl
  | a :: l, h => by
    simp only [List.dropWhile_cons, h a (by simp)]
    simp [dropWhileAll p l (fun b hb => h b (by simp [hb]))]

/-- Character classes of the ten digits, as the lexer tests them. -/
theorem digitCharFacts (c : Char) (h : c ∈ digitChars) :
    isWsCh c = false ∧ isLetterCh c = false ∧ isDigitCh c = true := by
  fin_cases h <;> decide

/-- Scanning the empty character list yields no tokens, whatever the
fuel. -/
theorem tokenizeNil (fuel : Nat) : tokenize fuel [] = [] := by
  cases fuel <;> rfl

/-- The lexer turns a nonempty all-digit character list into exactly one
INT token whose literal is that list. -/
theorem lexDigits : ∀ cs : List Char, cs ≠ [] → (∀ c ∈ cs, c ∈ digitChars) →
    tokenize cs.length cs = [⟨.INT, String.mk cs⟩]
  | [], h1, _ => absurd rfl h1
  | c :: rest, _, h2 => by
    have hc := digitCharFacts c (h2 c (by simp))
    have htake : (c :: rest).takeWhile isDigitCh = c :: rest :=
      takeWhileAll _ _ (fun a ha => (digitCharFacts a (h2 a ha)).2.2)
    have hdrop : (c :: rest).dropWhile isDigitCh = [] :=
      dropWhileAll _ _ (fun a ha => (digitCharFacts a (h2 a ha)).2.2)
    have hscan : scanTok c rest = (⟨.INT, String.mk (c :: rest)⟩, []) := by
      unfold scanTok
      rw [if_neg (by simp [hc.2.1]), if_pos (by simp [hc.2.2]), htake, hdrop]
    simp only [List.length_cons]
    rw [tokenize]
    simp [hc.1, hscan, tokenizeNil]

/-- `strconv.ParseInt` with base 0 reads an all-digit literal that does
not start with `0` as its decimal value, provided it is in range. -/
theorem goParseIntDecimal (c : Char) (rest : List Char)
    (h2 : ∀ d ∈ c :: rest, d ∈ digitChars) (hc0 : c ≠ '0')
    (hrange : digitsVal (c :: rest) ≤ maxI64) :
    goParseInt (String.mk (c :: rest)) = some (digitsVal (c :: rest)) := by
  have hall : (c :: rest).all (fun d => decide ('0' ≤ d) && decide (d ≤ '9')) = true := by
    rw [List.all_eq_true]
    intro d hd
    exact (digitCharFacts d (h2 d hd)).2.2
  simp [goParseInt, hc0, hall, hrange]

/-- Removing newlines twice is the same as removing them once. -/
theorem stripNewlinesIdem (s : String) : stripNewlines (stripNewlines s) = stripNewlines s := by
  simp [stripNewlines, List.filter_filter]

/-- Claim C1: for any two binary infix operators o1, o2 of the
precedence table with levels L1 < L2, the canonical string form of the
program parsed from `a o1 b o2 c` groups `(b o2 c)` together, and that
of `a o2 b o1 c` groups `(a o2 b)` together.  Stated as the full
canonical forms `(a o1 (b o2 c))` and `((a o2 b) o1 c)`. -/
theorem c1_precedence_grouping :
    ∀ o1 ∈ opsList, ∀ o2 ∈ opsList, opLevel o1.1 < opLevel o2.1 →
      runString 60 ("a " ++ o1.2 ++ " b " ++ o2.2 ++ " c")
        = some ("(a " ++ o1.2 ++ " (b " ++ o2.2 ++ " c))")
      ∧ runString 60 ("a " ++ o2.2 ++ " b " ++ o1.2 ++ " c")
        = some ("((a " ++ o2.2 ++ " b) " ++ o1.2 ++ " c)") := by
  decide

/-- Witness for C1 at o1 = `+` (SUM) and o2 = `*` (PRODUCT). -/
theorem c1_precedence_witness :
    runString 60 "a + b * c" = some "(a + (b * c))"
    ∧ runString 60 "a * b + c" = some "((a * b) + c)" :=
  c1_precedence_grouping (.PLUS, "+") (by decide) (.ASTERISK, "*") (by decide) (by decide)

/-- Claim C2: every listed binary infix operator is left-associative —
the canonical string form of the program parsed from `a o b o c` is
`((a o b) o c)` for each of the eight operators. -/
theorem c2_left_assoc :
    ∀ o ∈ opsList,
      runString 60 ("a " ++ o.2 ++ " b " ++ o.2 ++ " c")
        = some ("((a " ++ o.2 ++ " b) " ++ o.2 ++ " c)") := by
  decide

/-- Witness for C2 at the operator `-` of the claim's example. -/
theorem c2_left_assoc_witness :
    runString 60 "a - b - c" = some "((a - b) - c)" :=
  c2_left_assoc (.MINUS, "-") (by decide)

/-- Claim C3 (refuting the termination part): after the value
expression of a `let` or `return` statement, the source's loop
`for !p.curTokenIs(token.SEMICOLON)` advances without ever testing for
end-of-file, so on `let x = 5` and `return 5` (no trailing semicolon)
`ParseProgram` loops forever; with the semicolon present it returns
with no errors. -/
theorem c3_semicolon_loop_divergence :
    runProgram 50 "let x = 5" = PRes.diverge
    ∧ runProgram 50 "return 5" = PRes.diverge
    ∧ runErrors 50 "let x = 5;" = some []
    ∧ runErrors 50 "return 5;" = some [] :=
  ⟨rfl, rfl, rfl, rfl⟩

/-- Counterexample to claim C4: the literal `08` is a nonempty string
of decimal digits denoting 8 (within int64 range), yet
`parseIntegerLiteral` appends a parser error for it, because
`strconv.ParseInt` is called with base 0 and `08` is invalid octal. -/
theorem c4_leading_zero_error :
    runErrors 50 "08" = some ["could not parse \"08\" as integer"] := rfl

/-- Claim C4 as amended: a digit literal that does not start with `0`
(and the literal `0` itself) parses with no error to its decimal value,
and its canonical string form preserves the literal exactly; a longer
literal starting with `0` is read in base 8, so `010` parses with no
error to the value 8 (string form still `010`) while `08` appends a
parser error. -/
theorem c4_integer_literal_base0 :
    (∀ s : String, s.data ≠ [] → (∀ c ∈ s.data, c ∈ digitChars) →
      s.data.head? ≠ some '0' → digitsVal s.data ≤ maxI64 →
        lex s = [⟨.INT, s⟩]
        ∧ parseIntegerLiteral (mkParser (lex s))
            = PRes.ok (.IntegerLiteral ⟨.INT, s⟩ (digitsVal s.data)) (mkParser (lex s))
        ∧ exprString (.IntegerLiteral ⟨.INT, s⟩ (digitsVal s.data)) = s)
    ∧ runErrors 50 "0" = some [] ∧ runString 50 "0" = some "0" ∧ runFirstIntVal 50 "0" = some 0
    ∧ runErrors 50 "010" = some [] ∧ runString 50 "010" = some "010"
    ∧ runFirstIntVal 50 "010" = some 8
    ∧ runErrors 50 "08" = some ["could not parse \"08\" as integer"] := by
  refine ⟨?_, rfl, rfl, rfl, rfl, rfl, rfl, rfl⟩
  intro s h1 h2 h0 hrange
  obtain ⟨cs⟩ := s
  match cs, h1, h2, h0, hrange with
  | c :: rest, _, h2, h0, hrange =>
    have hc0 : c ≠ '0' := by
      intro hcc
      exact h0 (by simp [hcc, List.head?])
    have hlex : lex (String.mk (c :: rest)) = [⟨.INT, String.mk (c :: rest)⟩] :=
      lexDigits (c :: rest) (by simp) h2
    refine ⟨hlex, ?_, rfl⟩
    rw [hlex]
    show parseIntegerLiteral ⟨⟨.INT, String.mk (c :: rest)⟩, eofTok, [], []⟩ = _
    unfold parseIntegerLiteral
    rw [show (⟨⟨.INT, String.mk (c :: rest)⟩, eofTok, [], []⟩ : PState).curToken.literal
          = String.mk (c :: rest) from rfl,
        goParseIntDecimal c rest h2 hc0 hrange]
    rfl

/-- Witness for the universal part of C4 at the literal `12`. -/
theorem c4_integer_literal_witness :
    lex "12" = [⟨.INT, "12"⟩]
    ∧ parseIntegerLiteral (mkParser (lex "12"))
        = PRes.ok (.IntegerLiteral ⟨.INT, "12"⟩ 12) (mkParser (lex "12"))
    ∧ exprString (.IntegerLiteral ⟨.INT, "12"⟩ 12) = "12" :=
  c4_integer_literal_base0.1 "12" (by decide) (by decide) (by decide) (by decide)

/-- Counterexample to claim C6: the hash literal `{"a": 1,}` with a
trailing comma parses with an empty error list — the parser does not
reject it. -/
theorem c6_trailing_comma_cex :
    runErrors 60 "\x7b\"a\": 1,\x7d" = some [] := rfl

/-- Claim C6 as amended: a trailing comma after the last pair of a hash
literal is accepted silently; `{"a": 1,}` and `{"a": 1}` both parse
with no errors and record the same single pair. -/
theorem c6_trailing_comma_accepted :
    runErrors 60 "\x7b\"a\": 1,\x7d" = some []
    ∧ runErrors 60 "\x7b\"a\": 1\x7d" = some []
    ∧ runFirstHashPairs 60 "\x7b\"a\": 1,\x7d" = runFirstHashPairs 60 "\x7b\"a\": 1\x7d"
    ∧ runFirstHashPairs 60 "\x7b\"a\": 1\x7d"
        = some [(.StringLiteral ⟨.STRING, "a"⟩ "a", .IntegerLiteral ⟨.INT, "1"⟩ 1)] :=
  ⟨rfl, rfl, rfl, rfl⟩

/-- Counterexample to claim C7: `fn(5) { x }` parses with an empty
error list, and its parameter node originates from the INT token `5`,
not from an identifier token. -/
theorem c7_param_check_cex :
    runErrors 60 "fn(5) \x7b x \x7d" = some []
    ∧ runFnParams 60 "fn(5) \x7b x \x7d" = some [(⟨.INT, "5"⟩, "5")] :=
  ⟨rfl, rfl⟩

/-- Claim C7 as amended: tokens in parameter position are not validated
— each is wrapped as an `Identifier` node carrying that token, so
`fn(5) { x }` and `fn(a, 1) { x }` parse with no errors; parser errors
arise only from a missing `(`, `)` or `{`, as for `fn(5`. -/
theorem c7_params_unvalidated :
    runErrors 60 "fn(5) \x7b x \x7d" = some []
    ∧ runFnParams 60 "fn(5) \x7b x \x7d" = some [(⟨.INT, "5"⟩, "5")]
    ∧ runErrors 60 "fn(a, 1) \x7b x \x7d" = some []
    ∧ runFnParams 60 "fn(a, 1) \x7b x \x7d" = some [(⟨.IDENT, "a"⟩, "a"), (⟨.INT, "1"⟩, "1")]
    ∧ runErrors 60 "fn(5"
        = some ["expected next token to be ), got EOF instead",
                "expected next token to be \x7b, got EOF instead"] :=
  ⟨rfl, rfl, rfl, rfl, rfl⟩

/-- Claim C10: a source ending before the closing brace of a block,
such as `if (x) { 1`, is accepted silently — `parseBlockStatement`
stops at end-of-file, the statements read so far form the block, and
the final error list is empty. -/
theorem c10_unterminated_block :
    runProgram 60 "if (x) \x7b 1"
      = PRes.ok
          [Statement.ExpressionStatement ⟨.IF, "if"⟩
            (Expression.IfExpression ⟨.IF, "if"⟩
              (Expression.Identifier ⟨.IDENT, "x"⟩ "x")
              (Statement.BlockStatement ⟨.LBRACE, "\x7b"⟩
                [Statement.ExpressionStatement ⟨.INT, "1"⟩
                  (Expression.IntegerLiteral ⟨.INT, "1"⟩ 1)])
              none)]
          ⟨eofTok, eofTok, [], []⟩ := rfl

/-- Counterexample to claim C9: for the source `"let a = 1\n"` the
newline-stripped line makes the parser's semicolon loop run forever, so
`StartHandle` never returns any `ok` value at all. -/
theorem c9_nonreturn_cex :
    startHandleCheck 50 "let a = 1\n" = HRes.diverge := rfl

/-- Claim C9 as amended: whenever parsing of the single newline-free
line terminates, the `ok` flag computed by `StartHandle` is false
exactly when that parse produced at least one parser error; and
removing newlines is what `StartHandle` does first, so a pre-stripped
input gives the same outcome. -/
theorem c9_check_flag :
    (∀ (fuel : Nat) (raw : String) (errs : List String),
        runErrors fuel (lineOf raw) = some errs →
        startHandleCheck fuel raw = HRes.ok errs.isEmpty)
    ∧ (∀ (fuel : Nat) (raw : String),
        startHandleCheck fuel (stripNewlines raw) = startHandleCheck fuel raw) := by
  constructor
  · intro fuel raw errs h
    cases hs : scanLine (stripNewlines raw) with
    | none =>
      have hline : lineOf raw = "" := by unfold lineOf; rw [hs]; rfl
      rw [hline] at h
      cases fuel with
      | zero => simp [runErrors, runProgram, ParseProgram, programLoop] at h
      | succ n =>
        have hrun : runErrors (n+1) "" = some [] := rfl
        rw [hrun] at h
        obtain rfl : errs = [] := (Option.some.inj h).symm
        simp [startHandleCheck, hs]
    | some line =>
      have hline : lineOf raw = line := by unfold lineOf; rw [hs]; rfl
      rw [hline] at h
      unfold runErrors runProgram at h
      cases hp : ParseProgram fuel (mkParser (lex line)) with
      | ok stmts st =>
        rw [hp] at h
        obtain rfl : st.errors = errs := Option.some.inj h
        simp [startHandleCheck, hs, hp]
      | diverge => rw [hp] at h; exact absurd h (by simp)
      | fuelOut => rw [hp] at h; exact absurd h (by simp)
  · intro fuel raw
    unfold startHandleCheck
    rw [stripNewlinesIdem]

/-- Witness for C9 at the input `"5 +\n5;"`, whose stripped line
`5 +5;` parses with no errors. -/
theorem c9_check_flag_witness :
    runErrors 60 (lineOf "5 +\n5;") = some []
    ∧ startHandleCheck 60 "5 +\n5;" = HRes.ok true :=
  ⟨rfl, c9_check_flag.1 60 "5 +\n5;" [] rfl⟩
